import Mathlib

/-!
Verification development for the calligraphy-annotator repository
(`src/streamlit_app.py`).  The Python source is shallowly embedded below:
parsed JSON values become the inductive type `Json` (numbers are kept as
integers; no claim depends on numeric payloads), the Streamlit session state
(`index`, `annotations`, `deleted`) becomes the structure `NavState` with the
index modelled as `Int` (a Python int), and the Supabase storage bucket
becomes the abstract map `Store` from object paths to stored record
sequences, with an oracle `ok : String → Bool` saying which upload calls
succeed (a failed upload raises, which the embedding models explicitly).
Both writes of a save use the same serialization options in the source, so
the store keeps the record sequence itself as the content.
-/

/-- Parsed JSON value, as produced by Python `json.loads`.  Python dicts are
key-value lists (real JSON objects have unique keys; lookups take the first
binding). -/
inductive Json where
  | null : Json
  | bool : Bool → Json
  | num : Int → Json
  | str : String → Json
  | arr : List Json → Json
  | obj : List (String × Json) → Json

/-- Python `isinstance(x, dict)`. -/
def is_dict : Json → Bool
  | Json.obj _ => true
  | _ => false

/-- Python `isinstance(x, list)`. -/
def is_list : Json → Bool
  | Json.arr _ => true
  | _ => false

/-- `normalize_records` of `streamlit_app.py` (lines 113-121): `None` becomes
`[]`, a dict becomes a singleton list, a list keeps only its dict elements,
anything else becomes `[]`. -/
def normalize_records : Json → List Json
  | Json.null => []
  | Json.obj kvs => [Json.obj kvs]
  | Json.arr xs => xs.filter is_dict
  | _ => []

/-- Python `d[k]` / `d.get(k)` on a dict modelled as a key-value list. -/
def dict_get (kvs : List (String × Json)) (k : String) : Option Json :=
  kvs.lookup k

/-- The `a["id"]` access used when building the `existing_ids`,
`annotated_ids` and `deleted_ids` sets; `none` when `a` is not a dict with an
`"id"` key (Python would raise there, which never happens on records built by
the app). -/
def get_id : Json → Option Json
  | Json.obj kvs => dict_get kvs "id"
  | _ => none

/-- Python `a["id"] == image_id` for a string `image_id`: true exactly when
the record's id value is that string. -/
def id_matches (a : Json) (i : String) : Bool :=
  match get_id a with
  | some (Json.str s) => s == i
  | _ => false

/-- Membership `image_id in {a["id"] for a in l}` used by the submit handler
(line 273-274) and the auto-skip loop (lines 180-182). -/
def has_id (l : List Json) (i : String) : Bool :=
  l.any (fun a => id_matches a i)

/-- The records of `l` whose `"id"` field equals the string `i`. -/
def records_with (l : List Json) (i : String) : List Json :=
  l.filter (fun a => id_matches a i)

/-- The data-model invariant of spec section 3: at most one record per `id`
within an annotation sequence. -/
def at_most_one_per_id (l : List Json) : Prop :=
  ∀ i : String, (records_with l i).length ≤ 1

/-- Python `os.path.basename`: the part of the path after the last `/`
(everything from the character following the last slash to the end). -/
def basename (p : String) : String :=
  String.mk ((p.toList.reverse.takeWhile (fun c => !(c == '/'))).reverse)

/-- Index of the last `.` in a character list, if any. -/
def last_dot_index : List Char → Option Nat
  | [] => none
  | c :: cs =>
    match last_dot_index cs with
    | some i => some (i + 1)
    | none => if c == '.' then some 0 else none

/-- Stem component of Python `os.path.splitext` applied to a bare filename:
the extension starts at the last dot unless every character before it is a
dot (so `".bashrc"` has no extension). -/
def splitext_stem (name : String) : String :=
  match last_dot_index name.toList with
  | none => name
  | some d =>
    if (name.toList.take d).all (fun c => c == '.') then name
    else String.mk (name.toList.take d)

/-- Record key derivation (spec section 4.1, code lines 185-187 and 272):
`os.path.splitext(os.path.basename(url))[0]`. -/
def image_id (url : String) : String :=
  splitext_stem (basename url)

/-- The six free-text form fields of the annotate tab (lines 224-257). -/
structure Fields where
  text_original : String
  text_latinized : String
  text_translation_tr : String
  surah_name : String
  ayah_number : String
  comment : String

/-- The `entry` dict built by the submit handler (lines 277-286). -/
def mk_entry (iid img_url : String) (f : Fields) : Json :=
  Json.obj
    [("id", Json.str iid),
     ("image_url", Json.str img_url),
     ("text_original", Json.str f.text_original),
     ("text_latinized", Json.str f.text_latinized),
     ("text_translation_tr", Json.str f.text_translation_tr),
     ("surah_name", Json.str f.surah_name),
     ("ayah_number", Json.str f.ayah_number),
     ("comment", Json.str f.comment)]

/-- The deletion record appended by the delete handler (lines 300-306). -/
def del_entry (iid img_url : String) : Json :=
  Json.obj
    [("id", Json.str iid),
     ("image_url", Json.str img_url),
     ("reason", Json.str "Not suitable for labeling")]

/-- In-memory effect of the submit handler on the annotation sequence
(lines 271-287): append a fresh entry unless a record with the derived id is
already present, in which case nothing changes; the Bool reports whether an
insert happened (`false` shows the duplicate info message instead). -/
def submit_logic (img_url : String) (f : Fields) (anns : List Json) :
    List Json × Bool :=
  let iid := image_id img_url
  if has_id anns iid then (anns, false)
  else (anns ++ [mk_entry iid img_url f], true)

/-- The Supabase bucket, abstracted per the storage contract of spec
section 6: a map from object path to the stored record sequence (both writes
of a save serialize identically, so content is kept unserialized). -/
def Store : Type := String → Option (List Json)

/-- Upload with `x-upsert: true`: overwrite the object at `path`. -/
def store_upsert (st : Store) (path : String) (data : List Json) : Store :=
  fun q => if q = path then some data else st q

/-- `upload_json_direct` (lines 68-90): serialize `data` and upload it to
`folder/filename`; its `try/except` catches an upload failure, reports it and
returns normally, so the Bool records whether the canonical write happened. -/
def upload_json_direct (ok : String → Bool) (st : Store) (data : List Json)
    (folder filename : String) : Store × Bool :=
  let remote_path := folder ++ "/" ++ filename
  if ok remote_path then (store_upsert st remote_path data, true)
  else (st, false)

/-- Backup object key built at line 99:
`{folder}/_backups/{filename.replace('.json','')}-{ts}.json`. -/
def backup_key (folder filename ts : String) : String :=
  folder ++ "/_backups/" ++ (filename.replace ".json" "") ++ "-" ++ ts ++ ".json"

/-- `backup_and_upload_json` (lines 92-111): upload a timestamped backup
first — this call is not wrapped in `try`, so a failure raises out of the
function (modelled as `Except.error`) before the canonical write — then
overwrite the canonical file via `upload_json_direct`. -/
def backup_and_upload_json (ok : String → Bool) (st : Store) (data : List Json)
    (folder filename ts : String) : Store × Except String Bool :=
  if ok (backup_key folder filename ts) then
    let st1 := store_upsert st (backup_key folder filename ts) data
    let res := upload_json_direct ok st1 data folder filename
    (res.1, Except.ok res.2)
  else (st, Except.error "backup upload failed")

/-- The session state of the app: current image index (a Python int) and the
in-memory `annotations` and `deleted` sequences (lines 146-166). -/
structure NavState where
  index : Int
  annotations : List Json
  deleted : List Json

/-- `next_image` (lines 169-172): advance by one, clamped at `N - 1`. -/
def next_image (n i : Int) : Int := min (i + 1) (n - 1)

/-- `prev_image` (lines 174-175): retreat by one, clamped at `0`. -/
def prev_image (i : Int) : Int := max 0 (i - 1)

/-- `processed_ids` membership (lines 180-182): the id is in the union of
annotated and deleted ids. -/
def is_processed (anns del : List Json) (i : String) : Bool :=
  has_id anns i || has_id del i

/-- One unrolling bound for the auto-skip `while` loop; the loop strictly
increases the index, so `urls.length` iterations always suffice from a
nonnegative start. -/
def auto_skip_fuel (urls : List String) (proc : String → Bool) :
    Nat → Int → Int
  | 0, i => i
  | fuel + 1, i =>
    if 0 ≤ i ∧ i < (urls.length : Int) then
      if proc (image_id (urls.getD i.toNat "")) then
        auto_skip_fuel urls proc fuel (i + 1)
      else i
    else i

/-- The auto-skip loop (lines 184-190): starting from `i`, advance the index
past every image whose derived id satisfies `proc` (already processed),
stopping at the first unprocessed image or at the end of the sequence. -/
def auto_skip (urls : List String) (proc : String → Bool) (i : Int) : Int :=
  auto_skip_fuel urls proc urls.length i

/-- One full script rerun of the annotate view: recompute the processed set
from session state and run the auto-skip loop on the current index. -/
def run_view (urls : List String) (s : NavState) : NavState :=
  { s with index := auto_skip urls (is_processed s.annotations s.deleted) s.index }

/-- The user events that drive navigation: save-and-advance,
delete-and-advance, and back (lines 259-268). -/
inductive Event where
  | submit : Fields → Event
  | delete : Event
  | back : Event

/-- The in-memory effect of one button handler (lines 271-320): submit and
delete mutate their sequence and advance via `next_image`; back retreats via
`prev_image`.  Storage effects are modelled separately (`on_submit`,
`backup_and_upload_json`) since they do not touch navigation state. -/
def handle (urls : List String) (s : NavState) : Event → NavState
  | Event.submit f =>
    let img_url := urls.getD s.index.toNat ""
    { s with annotations := (submit_logic img_url f s.annotations).1,
             index := next_image (urls.length : Int) s.index }
  | Event.delete =>
    let img_url := urls.getD s.index.toNat ""
    { s with deleted := s.deleted ++ [del_entry (image_id img_url) img_url],
             index := next_image (urls.length : Int) s.index }
  | Event.back =>
    { s with index := prev_image s.index }

/-- One event followed by the script rerun (`st.rerun()`): when the view is
already exhausted (`index ≥ len(image_urls)`) the script stopped at line 194,
so no handler runs; otherwise the handler fires and the rerun re-applies the
auto-skip loop to the updated state. -/
def step (urls : List String) (s : NavState) (e : Event) : NavState :=
  if (urls.length : Int) ≤ s.index then s
  else run_view urls (handle urls s e)

/-- A whole session on one folder: the state is loaded with `index = 0`
(lines 150-158), the first render applies auto-skip, and then the user's
events are processed one at a time. -/
def run_events (urls : List String) (s0 : NavState) (es : List Event) : NavState :=
  es.foldl (step urls) (run_view urls s0)

/-- Full submit handler including storage (lines 271-296), over the upload
oracle `ok` and the timestamp `ts` of this save: a duplicate id is an
informational no-op apart from `next_image`; otherwise the entry is appended
and `backup_and_upload_json` runs — if its backup write raises, the script
aborts before `next_image` (the appended entry stays in memory). -/
def on_submit (ok : String → Bool) (ts selected_folder : String)
    (urls : List String) (f : Fields) (s : NavState) (st : Store) :
    NavState × Store × Except String Bool :=
  let img_url := urls.getD s.index.toNat ""
  let iid := image_id img_url
  if has_id s.annotations iid then
    ({ s with index := next_image (urls.length : Int) s.index }, st, Except.ok false)
  else
    let anns := s.annotations ++ [mk_entry iid img_url f]
    let s1 := { s with annotations := anns }
    match backup_and_upload_json ok st anns (selected_folder ++ "_annotations")
        "annotations.json" ts with
    | (st1, Except.error e) => (s1, st1, Except.error e)
    | (st1, Except.ok b) =>
      ({ s1 with index := next_image (urls.length : Int) s.index }, st1, Except.ok b)

/-- Column list `ann_df_cols` of the grid editor (lines 371-380). -/
def ann_df_cols : List String :=
  ["id", "image_url", "text_original", "text_latinized", "text_translation_tr",
   "surah_name", "ayah_number", "comment"]

/-- Python `d.get(k, dflt)`. -/
def py_get (d : Json) (k : String) (dflt : Json) : Json :=
  match d with
  | Json.obj kvs => (dict_get kvs k).getD dflt
  | _ => dflt

/-- `to_row` (lines 382-383): `{k: d.get(k, "") for k in cols}`. -/
def to_row (d : Json) (cols : List String) : Json :=
  Json.obj (cols.map (fun k => (k, py_get d k (Json.str ""))))

/-- `ann_rows` (lines 370 and 385): the grid's displayed row sequence, one
row per element of `normalize_records(st.session_state.annotations)`. -/
def ann_rows (anns : List Json) : List Json :=
  (normalize_records (Json.arr anns)).map (fun r => to_row r ann_df_cols)

/-- The grid save handler (lines 394-404): replace the in-memory annotation
sequence wholesale with the edited rows (each row is a dict produced by the
data editor) and persist via `backup_and_upload_json`. -/
def grid_save (ok : String → Bool) (ts ann_folder : String)
    (rows : List (List (String × Json))) (s : NavState) (st : Store) :
    NavState × Store × Except String Bool :=
  let anns := rows.map Json.obj
  let s1 := { s with annotations := anns }
  let res := backup_and_upload_json ok st anns ann_folder "annotations.json" ts
  (s1, res.1, res.2)

/-- The raw-JSON "Validate & Save" handler for `annotations.json`
(lines 437-446): normalize the parsed value, replace the in-memory sequence
wholesale, and persist via `backup_and_upload_json`. -/
def raw_save_ann (ok : String → Bool) (ts ann_folder : String)
    (parsed : Json) (s : NavState) (st : Store) :
    NavState × Store × Except String Bool :=
  let objn := normalize_records parsed
  let s1 := { s with annotations := objn }
  let res := backup_and_upload_json ok st objn ann_folder "annotations.json" ts
  (s1, res.1, res.2)

/-- The raw-JSON "Validate & Save" handler for the `deleted.json` target
(lines 439-440 and 447-451): normalize the parsed value, replace the
in-memory deletion sequence wholesale, and persist via
`backup_and_upload_json` to `deleted.json`. -/
def raw_save_del (ok : String → Bool) (ts ann_folder : String)
    (parsed : Json) (s : NavState) (st : Store) :
    NavState × Store × Except String Bool :=
  let objn := normalize_records parsed
  let s1 := { s with deleted := objn }
  let res := backup_and_upload_json ok st objn ann_folder "deleted.json" ts
  (s1, res.1, res.2)

/-! ### Shared lemmas about records and ids -/

lemma has_id_append (l₁ l₂ : List Json) (i : String) :
    has_id (l₁ ++ l₂) i = (has_id l₁ i || has_id l₂ i) := by
  simp [has_id, List.any_append]

lemma id_matches_mk_entry (iid img_url : String) (f : Fields) (j : String) :
    id_matches (mk_entry iid img_url f) j = (iid == j) := rfl

lemma id_matches_del_entry (iid img_url : String) (j : String) :
    id_matches (del_entry iid img_url) j = (iid == j) := rfl

lemma get_id_mk_entry (iid img_url : String) (f : Fields) :
    get_id (mk_entry iid img_url f) = some (Json.str iid) := rfl

lemma records_with_append (l₁ l₂ : List Json) (i : String) :
    records_with (l₁ ++ l₂) i = records_with l₁ i ++ records_with l₂ i := by
  simp [records_with]

lemma records_with_nil_of_has_id_false (l : List Json) (i : String)
    (h : has_id l i = false) : records_with l i = [] := by
  unfold records_with
  rw [List.filter_eq_nil_iff]
  intro a ha
  have := List.any_eq_false.mp h a ha
  simpa using this

lemma has_id_false_of_records_with_nil (l : List Json) (i : String)
    (h : records_with l i = []) : has_id l i = false := by
  rw [has_id, List.any_eq_false]
  intro a ha
  intro hm
  have : a ∈ records_with l i := List.mem_filter.mpr ⟨ha, hm⟩
  rw [h] at this
  exact absurd this (List.not_mem_nil a)

lemma submit_logic_fst_has_id (img_url : String) (f : Fields) (anns : List Json) :
    has_id (submit_logic img_url f anns).1 (image_id img_url) = true := by
  simp only [submit_logic]
  by_cases h : has_id anns (image_id img_url) = true
  · rw [if_pos h]
    exact h
  · rw [if_neg h]
    rw [has_id_append]
    have h1 : has_id [mk_entry (image_id img_url) img_url f] (image_id img_url) = true := by
      simp [has_id, id_matches_mk_entry]
    rw [h1, Bool.or_true]

lemma submit_logic_has_id_mono (img_url : String) (f : Fields) (anns : List Json)
    (i : String) (h : has_id anns i = true) :
    has_id (submit_logic img_url f anns).1 i = true := by
  simp only [submit_logic]
  by_cases hc : has_id anns (image_id img_url) = true
  · rw [if_pos hc]
    exact h
  · rw [if_neg hc]
    rw [has_id_append, h, Bool.true_or]

lemma is_processed_ann_mono (anns del l : List Json) (i : String)
    (h : is_processed anns del i = true) :
    is_processed (anns ++ l) del i = true := by
  have h' : has_id anns i = true ∨ has_id del i = true := by
    simpa [is_processed] using h
  rcases h' with h' | h'
  · simp [is_processed, has_id_append, h']
  · simp [is_processed, h']

lemma is_processed_del_mono (anns del l : List Json) (i : String)
    (h : is_processed anns del i = true) :
    is_processed anns (del ++ l) i = true := by
  have h' : has_id anns i = true ∨ has_id del i = true := by
    simpa [is_processed] using h
  rcases h' with h' | h'
  · simp [is_processed, h']
  · simp [is_processed, has_id_append, h']

lemma is_processed_submit_mono (img_url : String) (f : Fields)
    (anns del : List Json) (i : String)
    (h : is_processed anns del i = true) :
    is_processed (submit_logic img_url f anns).1 del i = true := by
  have h' : has_id anns i = true ∨ has_id del i = true := by
    simpa [is_processed] using h
  rcases h' with h' | h'
  · simp [is_processed, submit_logic_has_id_mono img_url f anns i h']
  · simp [is_processed, h']

lemma normalize_map_obj (rows : List (List (String × Json))) :
    normalize_records (Json.arr (rows.map Json.obj)) = rows.map Json.obj := by
  unfold normalize_records
  rw [List.filter_eq_self]
  intro a ha
  obtain ⟨r, _, rfl⟩ := List.mem_map.mp ha
  rfl

/-! ### Shared lemmas about the store -/

lemma store_upsert_self (st : Store) (p : String) (d : List Json) :
    store_upsert st p d p = some d := by
  simp [store_upsert]

lemma store_upsert_other (st : Store) (p : String) (d : List Json)
    (q : String) (h : q ≠ p) : store_upsert st p d q = st q := by
  simp [store_upsert, h]

/-! ### Shared lemmas about navigation -/

lemma prev_image_nonneg (i : Int) : 0 ≤ prev_image i := le_max_left 0 _

lemma prev_image_le (i : Int) (h : 0 ≤ i) : prev_image i ≤ i :=
  max_le h (by omega)

lemma next_image_lt (n i : Int) : next_image n i < n :=
  lt_of_le_of_lt (min_le_right _ _) (by omega)

lemma next_image_nonneg (n i : Int) (h0 : 0 ≤ i) (h1 : i < n) :
    0 ≤ next_image n i := le_min (by omega) (by omega)

lemma next_image_le_succ (n i : Int) : next_image n i ≤ i + 1 :=
  min_le_left _ _

lemma auto_skip_fuel_spec (urls : List String) (proc : String → Bool) :
    ∀ (fuel : Nat) (i : Int), 0 ≤ i → (urls.length : Int) ≤ i + fuel →
      i ≤ auto_skip_fuel urls proc fuel i ∧
      auto_skip_fuel urls proc fuel i ≤ max i (urls.length : Int) ∧
      (∀ j : Int, i ≤ j → j < auto_skip_fuel urls proc fuel i →
        proc (image_id (urls.getD j.toNat "")) = true) ∧
      (auto_skip_fuel urls proc fuel i < (urls.length : Int) →
        proc (image_id (urls.getD (auto_skip_fuel urls proc fuel i).toNat "")) = false) := by
  intro fuel
  induction fuel with
  | zero =>
    intro i hi hlen
    simp only [auto_skip_fuel]
    exact ⟨le_refl _, le_max_left _ _, fun j hij hji => by omega, fun hlt => by omega⟩
  | succ fuel ih =>
    intro i hi hlen
    simp only [auto_skip_fuel]
    by_cases hc : 0 ≤ i ∧ i < (urls.length : Int)
    · rw [if_pos hc]
      by_cases hp : proc (image_id (urls.getD i.toNat "")) = true
      · rw [if_pos hp]
        obtain ⟨h1, h2, h3, h4⟩ := ih (i + 1) (by omega) (by omega)
        refine ⟨by omega, ?_, ?_, h4⟩
        · have hm : max (i + 1) (urls.length : Int) = (urls.length : Int) :=
            max_eq_right (by omega)
          rw [hm] at h2
          exact le_trans h2 (le_max_right _ _)
        · intro j hij hji
          by_cases hj1 : i + 1 ≤ j
          · exact h3 j hj1 hji
          · have hj : j = i := by omega
            rw [hj]
            exact hp
      · rw [if_neg hp]
        refine ⟨le_refl _, le_max_left _ _, fun j hij hji => by omega, fun _ => ?_⟩
        simpa using hp
    · rw [if_neg hc]
      exact ⟨le_refl _, le_max_left _ _, fun j hij hji => by omega, fun hlt => by omega⟩

lemma auto_skip_spec (urls : List String) (proc : String → Bool) (i : Int)
    (hi : 0 ≤ i) :
    i ≤ auto_skip urls proc i ∧
    auto_skip urls proc i ≤ max i (urls.length : Int) ∧
    (∀ j : Int, i ≤ j → j < auto_skip urls proc i →
      proc (image_id (urls.getD j.toNat "")) = true) ∧
    (auto_skip urls proc i < (urls.length : Int) →
      proc (image_id (urls.getD (auto_skip urls proc i).toNat "")) = false) :=
  auto_skip_fuel_spec urls proc urls.length i hi (by omega)

lemma auto_skip_exhaust_iff (urls : List String) (proc : String → Bool)
    (i : Int) (hi : 0 ≤ i) :
    (urls.length : Int) ≤ auto_skip urls proc i ↔
      ∀ j : Int, i ≤ j → j < (urls.length : Int) →
        proc (image_id (urls.getD j.toNat "")) = true := by
  obtain ⟨h1, h2, h3, h4⟩ := auto_skip_spec urls proc i hi
  constructor
  · intro hex j hij hj
    exact h3 j hij (by omega)
  · intro hall
    by_contra hlt
    push_neg at hlt
    have hfalse := h4 hlt
    have htrue := hall (auto_skip urls proc i) h1 hlt
    rw [htrue] at hfalse
    exact absurd hfalse (by simp)

/-- Reachability invariant of the annotate view: the index is in
`[0, len(image_urls)]`, every image strictly before it is processed, and if
it points at an image, that image is unprocessed (the view only ever shows
unprocessed images). -/
def NavInv (urls : List String) (s : NavState) : Prop :=
  0 ≤ s.index ∧ s.index ≤ (urls.length : Int) ∧
  (∀ j : Int, 0 ≤ j → j < s.index →
    is_processed s.annotations s.deleted (image_id (urls.getD j.toNat "")) = true) ∧
  (s.index < (urls.length : Int) →
    is_processed s.annotations s.deleted (image_id (urls.getD s.index.toNat "")) = false)

lemma run_view_inv (urls : List String) (s : NavState)
    (h0 : 0 ≤ s.index) (hle : s.index ≤ (urls.length : Int))
    (hpre : ∀ j : Int, 0 ≤ j → j < s.index →
      is_processed s.annotations s.deleted (image_id (urls.getD j.toNat "")) = true) :
    NavInv urls (run_view urls s) := by
  obtain ⟨h1, h2, h3, h4⟩ :=
    auto_skip_spec urls (is_processed s.annotations s.deleted) s.index h0
  unfold NavInv run_view
  dsimp only
  refine ⟨le_trans h0 h1, ?_, ?_, h4⟩
  · have hm : max s.index (urls.length : Int) = (urls.length : Int) := max_eq_right hle
    rw [hm] at h2
    exact h2
  · intro j hj0 hjlt
    by_cases hcase : j < s.index
    · exact hpre j hj0 hcase
    · exact h3 j (by omega) hjlt

lemma handle_pre (urls : List String) (s : NavState) (e : Event)
    (hInv : NavInv urls s) (hlt : s.index < (urls.length : Int)) :
    0 ≤ (handle urls s e).index ∧ (handle urls s e).index ≤ (urls.length : Int) ∧
    (∀ j : Int, 0 ≤ j → j < (handle urls s e).index →
      is_processed (handle urls s e).annotations (handle urls s e).deleted
        (image_id (urls.getD j.toNat "")) = true) := by
  obtain ⟨h0, hle, hpre, hstop⟩ := hInv
  cases e with
  | back =>
    dsimp only [handle]
    refine ⟨prev_image_nonneg _, le_trans (prev_image_le _ h0) hle, ?_⟩
    intro j hj0 hjlt
    exact hpre j hj0 (lt_of_lt_of_le hjlt (prev_image_le _ h0))
  | delete =>
    dsimp only [handle]
    refine ⟨next_image_nonneg _ _ h0 hlt, le_of_lt (next_image_lt _ _), ?_⟩
    intro j hj0 hjlt
    have hj1 : j ≤ s.index := by
      have := next_image_le_succ (urls.length : Int) s.index
      omega
    by_cases hcase : j < s.index
    · exact is_processed_del_mono _ _ _ _ (hpre j hj0 hcase)
    · have hj : j = s.index := by omega
      rw [hj]
      simp [is_processed, has_id_append, has_id, id_matches_del_entry]
  | submit f =>
    dsimp only [handle]
    refine ⟨next_image_nonneg _ _ h0 hlt, le_of_lt (next_image_lt _ _), ?_⟩
    intro j hj0 hjlt
    have hj1 : j ≤ s.index := by
      have := next_image_le_succ (urls.length : Int) s.index
      omega
    by_cases hcase : j < s.index
    · exact is_processed_submit_mono _ _ _ _ _ (hpre j hj0 hcase)
    · have hj : j = s.index := by omega
      rw [hj]
      have hh := submit_logic_fst_has_id (urls.getD s.index.toNat "") f s.annotations
      unfold is_processed
      rw [hh, Bool.true_or]

lemma step_inv (urls : List String) (s : NavState) (e : Event)
    (h : NavInv urls s) : NavInv urls (step urls s e) := by
  unfold step
  by_cases hex : (urls.length : Int) ≤ s.index
  · rw [if_pos hex]
    exact h
  · rw [if_neg hex]
    have hlt : s.index < (urls.length : Int) := by omega
    obtain ⟨p0, ple, ppre⟩ := handle_pre urls s e h hlt
    exact run_view_inv urls (handle urls s e) p0 ple ppre

lemma foldl_step_inv (urls : List String) (es : List Event) :
    ∀ s : NavState, NavInv urls s → NavInv urls (es.foldl (step urls) s) := by
  induction es with
  | nil => intro s hs; exact hs
  | cons e es ih => intro s hs; exact ih _ (step_inv urls s e hs)

lemma run_events_inv (urls : List String) (anns0 del0 : List Json)
    (es : List Event) : NavInv urls (run_events urls ⟨0, anns0, del0⟩ es) := by
  unfold run_events
  refine foldl_step_inv urls es _ (run_view_inv urls ⟨0, anns0, del0⟩ le_rfl ?_ ?_)
  · exact Int.natCast_nonneg _
  · intro j hj0 hjlt
    have h2 : j < (0 : Int) := hjlt
    omega

lemma getD_mem_of_lt (urls : List String) (n : Nat) (h : n < urls.length) :
    urls.getD n "" ∈ urls := by
  rw [List.getD_eq_getElem?_getD, List.getElem?_eq_getElem h, Option.getD_some]
  exact List.getElem_mem h

/-! ### Claim theorems -/

/-- C4: for every parsed JSON value, `normalize_records` maps `null` to the
empty sequence, a mapping object to the singleton sequence containing it, a
sequence to the order-preserving subsequence of its mapping elements
(non-mapping elements silently dropped), and any other value to the empty
sequence. -/
theorem C4_normalization_rule :
    normalize_records Json.null = [] ∧
    (∀ kvs : List (String × Json), normalize_records (Json.obj kvs) = [Json.obj kvs]) ∧
    (∀ xs : List Json,
      normalize_records (Json.arr xs) = xs.filter is_dict ∧
      (normalize_records (Json.arr xs)).Sublist xs ∧
      (∀ r : Json, r ∈ normalize_records (Json.arr xs) ↔ r ∈ xs ∧ is_dict r = true)) ∧
    (∀ x : Json, x ≠ Json.null → is_dict x = false → is_list x = false →
      normalize_records x = []) := by
  refine ⟨rfl, fun kvs => rfl, fun xs => ⟨rfl, List.filter_sublist xs, fun r => ?_⟩, ?_⟩
  · show r ∈ xs.filter is_dict ↔ r ∈ xs ∧ is_dict r = true
    exact List.mem_filter
  · intro x hnull hdict hlist
    cases x with
    | null => exact absurd rfl hnull
    | bool b => rfl
    | num n => rfl
    | str s => rfl
    | arr xs => simp [is_list] at hlist
    | obj kvs => simp [is_dict] at hdict

/-- Witness for C4 at the concrete non-null, non-dict, non-list value
`"not a list or object"` (the JSON string of spec section 8, property 7). -/
theorem C4_witness : normalize_records (Json.str "not a list or object") = [] :=
  C4_normalization_rule.2.2.2 (Json.str "not a list or object")
    (fun h => Json.noConfusion h) rfl rfl

/-- C5: `normalize_records` is idempotent — re-normalizing the (list-valued)
output of a normalization returns it unchanged, for every JSON-decoded
value. -/
theorem C5_normalize_idempotent (x : Json) :
    normalize_records (Json.arr (normalize_records x)) = normalize_records x := by
  cases x with
  | null => rfl
  | bool b => rfl
  | num n => rfl
  | str s => rfl
  | obj kvs => rfl
  | arr xs =>
    show (xs.filter is_dict).filter is_dict = xs.filter is_dict
    induction xs with
    | nil => rfl
    | cons a tl ih =>
      cases ha : is_dict a
      · simp [List.filter_cons, ha, ih]
      · simp [List.filter_cons, ha, ih]

/-- C1: the submit handler inserts a record if and only if no record with
the derived id exists; a duplicate submit leaves the sequence (hence every
existing record's fields) unchanged and reports the no-op; and two
submissions for the same id leave exactly one record with that id, carrying
the first submission's field values. -/
theorem C1_upsert_exclusivity :
    ∀ (url₁ url₂ : String) (f₁ f₂ : Fields) (anns : List Json),
      ((submit_logic url₁ f₁ anns).2 = true ↔ has_id anns (image_id url₁) = false) ∧
      (has_id anns (image_id url₁) = true → submit_logic url₁ f₁ anns = (anns, false)) ∧
      (records_with anns (image_id url₁) = [] → image_id url₂ = image_id url₁ →
        records_with (submit_logic url₂ f₂ (submit_logic url₁ f₁ anns).1).1
            (image_id url₁) = [mk_entry (image_id url₁) url₁ f₁]) := by
  intro url₁ url₂ f₁ f₂ anns
  refine ⟨?_, ?_, ?_⟩
  · by_cases h : has_id anns (image_id url₁) = true
    · simp [submit_logic, h]
    · rw [Bool.not_eq_true] at h
      simp [submit_logic, h]
  · intro h
    simp only [submit_logic]
    rw [if_pos h]
  · intro hrec heq
    have h1 : has_id anns (image_id url₁) = false :=
      has_id_false_of_records_with_nil _ _ hrec
    have hs1 : (submit_logic url₁ f₁ anns).1 =
        anns ++ [mk_entry (image_id url₁) url₁ f₁] := by
      simp only [submit_logic]
      rw [if_neg (by simp [h1])]
    have h2 : has_id (anns ++ [mk_entry (image_id url₁) url₁ f₁]) (image_id url₂) = true := by
      rw [heq, has_id_append]
      have hone : has_id [mk_entry (image_id url₁) url₁ f₁] (image_id url₁) = true := by
        simp [has_id, id_matches_mk_entry]
      rw [hone, Bool.or_true]
    have hs2 : (submit_logic url₂ f₂ (submit_logic url₁ f₁ anns).1).1 =
        anns ++ [mk_entry (image_id url₁) url₁ f₁] := by
      rw [hs1]
      simp only [submit_logic]
      rw [if_pos h2]
    rw [hs2, records_with_append, hrec]
    simp [records_with, id_matches_mk_entry]

/-- Witness for C1: submitting `a.jpg` then `a.png` (same stem) on an empty
sequence leaves exactly the first entry. -/
theorem C1_witness :
    records_with (submit_logic "g/a.png" ⟨"y", "", "", "", "", ""⟩
        (submit_logic "f/a.jpg" ⟨"x", "", "", "", "", ""⟩ []).1).1 (image_id "f/a.jpg") =
      [mk_entry (image_id "f/a.jpg") "f/a.jpg" ⟨"x", "", "", "", "", ""⟩] :=
  (C1_upsert_exclusivity "f/a.jpg" "g/a.png" ⟨"x", "", "", "", "", ""⟩
    ⟨"y", "", "", "", "", ""⟩ []).2.2 rfl (by decide)

/-- C2 counterexample: with two observed images and an empty persisted
annotation sequence, the grid's displayed row sequence is empty — its length
is not the number of observed images, refuting the merge-completeness
claim. -/
theorem C2_counterexample :
    ¬ ((ann_rows ([] : List Json)).length =
        ((["folder/a.jpg", "folder/b.png"] : List String).map image_id).length) := by
  decide

/-- C2 amended: the grid's displayed row sequence has exactly one row per
mapping object of the persisted annotation sequence, in persisted order, each
row carrying the record's value for each grid column when present and the
empty string otherwise; the observed images play no role. -/
theorem C2_grid_rows :
    ∀ anns : List Json,
      (ann_rows anns).length = (anns.filter is_dict).length ∧
      (∀ j : Nat, j < (anns.filter is_dict).length →
        (ann_rows anns).getD j Json.null =
          to_row ((anns.filter is_dict).getD j Json.null) ann_df_cols) := by
  intro anns
  constructor
  · simp [ann_rows, normalize_records]
  · intro j hj
    have h1 : (anns.filter is_dict)[j]? = some ((anns.filter is_dict)[j]) :=
      List.getElem?_eq_getElem hj
    simp [ann_rows, normalize_records, List.getD_eq_getElem?_getD, List.getElem?_map, h1]

/-- Witness for C2's amended statement at a one-record sequence. -/
theorem C2_witness :
    (ann_rows [Json.obj [("id", Json.str "a")]]).getD 0 Json.null =
      to_row (([Json.obj [("id", Json.str "a")]].filter is_dict).getD 0 Json.null)
        ann_df_cols :=
  (C2_grid_rows [Json.obj [("id", Json.str "a")]]).2 0 (by decide)

/-- C3: every save writes the full record sequence to the timestamped
backup key first and only then overwrites the canonical file with the same
content; when the backup upload fails, nothing at all is written (the
canonical overwrite does not proceed) and the failure is reported; when only
the canonical upload fails, the backup is retained, the canonical object is
untouched, and the failure is reported without retry. -/
theorem C3_backup_then_overwrite :
    ∀ (ok : String → Bool) (st : Store) (data : List Json) (folder filename ts : String),
      (ok (backup_key folder filename ts) = false →
        backup_and_upload_json ok st data folder filename ts =
          (st, Except.error "backup upload failed")) ∧
      (ok (backup_key folder filename ts) = true →
        (backup_and_upload_json ok st data folder filename ts).1
            (backup_key folder filename ts) = some data ∧
        (ok (folder ++ "/" ++ filename) = true →
          (backup_and_upload_json ok st data folder filename ts).1
              (folder ++ "/" ++ filename) = some data) ∧
        (ok (folder ++ "/" ++ filename) = false →
          (backup_and_upload_json ok st data folder filename ts).2 = Except.ok false ∧
          ∀ p : String, p ≠ backup_key folder filename ts →
            (backup_and_upload_json ok st data folder filename ts).1 p = st p)) := by
  intro ok st data folder filename ts
  constructor
  · intro h
    simp only [backup_and_upload_json]
    rw [if_neg (by simp [h])]
  · intro h
    simp only [backup_and_upload_json]
    rw [if_pos h]
    by_cases hc : ok (folder ++ "/" ++ filename) = true
    · simp only [upload_json_direct]
      rw [if_pos hc]
      refine ⟨?_, fun _ => store_upsert_self _ _ _, fun hfc => ?_⟩
      · simp [store_upsert]
      · rw [hc] at hfc
        exact absurd hfc (by simp)
    · simp only [upload_json_direct]
      rw [if_neg hc]
      refine ⟨store_upsert_self _ _ _, fun hct => absurd hct hc, fun _ => ⟨rfl, ?_⟩⟩
      intro p hp
      exact store_upsert_other _ _ _ _ hp

/-- Witness for C3: with an oracle failing every upload, a save on the empty
store errors out and writes nothing. -/
theorem C3_witness :
    backup_and_upload_json (fun _ => false) (fun _ => none) [] "f_annotations"
        "annotations.json" "20240101-000000" =
      ((fun _ => none : Store), Except.error "backup upload failed") :=
  (C3_backup_then_overwrite (fun _ => false) (fun _ => none) [] "f_annotations"
    "annotations.json" "20240101-000000").1 rfl

/-- C6: `next_image` never produces an index at or beyond the image count
(it adds one, clamped at `N - 1`); `prev_image` never produces a negative
index (it subtracts one, clamped at `0`); and over every session event
sequence, the terminal exhausted state (`index ≥ N`) holds exactly when
every observed image id is in the union of annotated and deleted ids. -/
theorem C6_navigation_state_machine :
    (∀ n i : Int, next_image n i < n) ∧
    (∀ n i : Int, i + 1 ≤ n - 1 → next_image n i = i + 1) ∧
    (∀ n i : Int, n - 1 ≤ i + 1 → next_image n i = n - 1) ∧
    (∀ i : Int, 0 ≤ prev_image i) ∧
    (∀ i : Int, 1 ≤ i → prev_image i = i - 1) ∧
    (∀ i : Int, i ≤ 1 → prev_image i = 0) ∧
    (∀ (urls : List String) (anns0 del0 : List Json) (es : List Event),
      ((urls.length : Int) ≤ (run_events urls ⟨0, anns0, del0⟩ es).index ↔
        ∀ url ∈ urls,
          is_processed (run_events urls ⟨0, anns0, del0⟩ es).annotations
            (run_events urls ⟨0, anns0, del0⟩ es).deleted (image_id url) = true)) := by
  refine ⟨fun n i => next_image_lt n i, fun n i h => min_eq_left h,
    fun n i h => min_eq_right h, fun i => prev_image_nonneg i,
    fun i h => max_eq_right (by omega), fun i h => max_eq_left (by omega), ?_⟩
  intro urls anns0 del0 es
  obtain ⟨h0, hle, hpre, hstop⟩ := run_events_inv urls anns0 del0 es
  constructor
  · intro hex url hmem
    obtain ⟨⟨k, hk⟩, hget⟩ := List.mem_iff_get.mp hmem
    have hgd : urls.getD k "" = url := by
      rw [List.getD_eq_getElem?_getD, List.getElem?_eq_getElem hk]
      exact hget
    have hklt : (k : Int) < (urls.length : Int) := by exact_mod_cast hk
    have hp := hpre (k : Int) (Int.natCast_nonneg k) (by omega)
    rw [Int.toNat_natCast, hgd] at hp
    exact hp
  · intro hall
    by_contra hlt
    push_neg at hlt
    have hst := hstop hlt
    have hbound : (run_events urls ⟨0, anns0, del0⟩ es).index.toNat < urls.length := by
      omega
    have hmem := getD_mem_of_lt urls _ hbound
    have hp := hall _ hmem
    rw [hp] at hst
    exact absurd hst (by simp)

/-- Witness for C6's clamp characterizations at concrete indices. -/
theorem C6_witness : next_image 3 0 = 0 + 1 ∧ prev_image 2 = 2 - 1 :=
  ⟨C6_navigation_state_machine.2.1 3 0 (by decide),
   C6_navigation_state_machine.2.2.2.2.1 2 (by decide)⟩

/-- C7: from any entry index, the auto-skip loop advances past exactly the
images whose derived ids are already processed (annotated or deleted),
stopping at the first unprocessed image at or after the entry index; it ends
at or beyond the image count exactly when no unprocessed image remains from
the entry index on, and in that exhausted state every further navigation
event is disabled (the script stops before the handlers). -/
theorem C7_auto_skip_correctness :
    ∀ (urls : List String) (s : NavState) (i : Int), 0 ≤ i →
      (i ≤ auto_skip urls (is_processed s.annotations s.deleted) i ∧
       (∀ j : Int, i ≤ j → j < auto_skip urls (is_processed s.annotations s.deleted) i →
         is_processed s.annotations s.deleted (image_id (urls.getD j.toNat "")) = true) ∧
       (auto_skip urls (is_processed s.annotations s.deleted) i < (urls.length : Int) →
         is_processed s.annotations s.deleted
             (image_id (urls.getD
               (auto_skip urls (is_processed s.annotations s.deleted) i).toNat "")) = false) ∧
       ((urls.length : Int) ≤ auto_skip urls (is_processed s.annotations s.deleted) i ↔
         ∀ j : Int, i ≤ j → j < (urls.length : Int) →
           is_processed s.annotations s.deleted (image_id (urls.getD j.toNat "")) = true)) ∧
      (∀ e : Event, (urls.length : Int) ≤ s.index → step urls s e = s) := by
  intro urls s i hi
  obtain ⟨h1, h2, h3, h4⟩ :=
    auto_skip_spec urls (is_processed s.annotations s.deleted) i hi
  refine ⟨⟨h1, h3, h4, auto_skip_exhaust_iff urls _ i hi⟩, fun e hex => ?_⟩
  unfold step
  rw [if_pos hex]

/-- Witness for C7 at a singleton folder with nothing processed. -/
theorem C7_witness :
    (0 : Int) ≤ auto_skip ["f/a.jpg"] (is_processed [] []) 0 :=
  ((C7_auto_skip_correctness ["f/a.jpg"] ⟨0, [], []⟩ 0 (by decide)).1).1

/-- C8: every bulk-edit path replaces the in-memory sequence of its target
document wholesale — the grid save with the edited rows (each a dict, on
which the normalization rule of the spec is the identity), and the raw-JSON
save of either `annotations.json` or `deleted.json` with the normalization
of the parsed value — and persists exactly that normalized sequence to the
target's canonical file; the result depends only on the edited content,
never on the prior sequence (no per-row diffing). -/
theorem C8_bulk_replace_normalizes :
    ∀ (ts folder : String) (rows : List (List (String × Json))) (parsed : Json)
      (s : NavState) (st : Store),
      ((grid_save (fun _ => true) ts folder rows s st).1.annotations =
          normalize_records (Json.arr (rows.map Json.obj)) ∧
        (grid_save (fun _ => true) ts folder rows s st).2.1
            (folder ++ "/" ++ "annotations.json") =
          some (normalize_records (Json.arr (rows.map Json.obj)))) ∧
      ((raw_save_ann (fun _ => true) ts folder parsed s st).1.annotations =
          normalize_records parsed ∧
        (raw_save_ann (fun _ => true) ts folder parsed s st).2.1
            (folder ++ "/" ++ "annotations.json") =
          some (normalize_records parsed)) ∧
      ((raw_save_del (fun _ => true) ts folder parsed s st).1.deleted =
          normalize_records parsed ∧
        (raw_save_del (fun _ => true) ts folder parsed s st).2.1
            (folder ++ "/" ++ "deleted.json") =
          some (normalize_records parsed)) := by
  intro ts folder rows parsed s st
  refine ⟨⟨?_, ?_⟩, ⟨rfl, ?_⟩, rfl, ?_⟩
  · rw [normalize_map_obj]
    rfl
  · rw [normalize_map_obj]
    simp [grid_save, backup_and_upload_json, upload_json_direct, store_upsert]
  · simp [raw_save_ann, backup_and_upload_json, upload_json_direct, store_upsert]
  · simp [raw_save_del, backup_and_upload_json, upload_json_direct, store_upsert]

/-- C9 counterexample: the raw-JSON save accepts an edited document holding
two records with id `"a"`; starting from an annotation sequence satisfying
the at-most-one-record-per-id invariant (the empty one), the resulting
in-memory sequence violates it, so not every mutating operation preserves
the invariant. -/
theorem C9_counterexample :
    at_most_one_per_id ([] : List Json) ∧
    ¬ at_most_one_per_id
        ((raw_save_ann (fun _ => true) "20240101-000000" "f_annotations"
            (Json.arr [Json.obj [("id", Json.str "a")], Json.obj [("id", Json.str "a")]])
            ⟨0, [], []⟩ (fun _ => none)).1.annotations) := by
  constructor
  · show ∀ i : String, (records_with ([] : List Json) i).length ≤ 1
    intro i
    simp [records_with]
  · intro h
    have h2 := h "a"
    revert h2
    decide

/-- C9 amended: the submit operation preserves the at-most-one-record-per-id
invariant, while the grid and raw-JSON saves replace the sequence wholesale
with no duplicate-id check, so they preserve the invariant only when the
normalized edited content itself satisfies it. -/
theorem C9_uniqueness_amended :
    (∀ (img_url : String) (f : Fields) (anns : List Json),
      at_most_one_per_id anns → at_most_one_per_id (submit_logic img_url f anns).1) ∧
    (∀ (ok : String → Bool) (ts folder : String) (parsed : Json) (s : NavState)
      (st : Store),
      at_most_one_per_id (normalize_records parsed) →
      at_most_one_per_id ((raw_save_ann ok ts folder parsed s st).1.annotations)) ∧
    (∀ (ok : String → Bool) (ts folder : String) (rows : List (List (String × Json)))
      (s : NavState) (st : Store),
      at_most_one_per_id (rows.map Json.obj) →
      at_most_one_per_id ((grid_save ok ts folder rows s st).1.annotations)) := by
  refine ⟨?_, fun _ _ _ _ _ _ h => h, fun _ _ _ _ _ _ h => h⟩
  intro img_url f anns h
  show ∀ i : String, (records_with (submit_logic img_url f anns).1 i).length ≤ 1
  intro i
  simp only [submit_logic]
  by_cases hc : has_id anns (image_id img_url) = true
  · rw [if_pos hc]
    exact h i
  · rw [Bool.not_eq_true] at hc
    rw [if_neg (by simp [hc])]
    show (records_with (anns ++ [mk_entry (image_id img_url) img_url f]) i).length ≤ 1
    rw [records_with_append, List.length_append]
    by_cases hi : i = image_id img_url
    · have ha : records_with anns i = [] := by
        rw [hi]
        exact records_with_nil_of_has_id_false _ _ hc
      have hb : (records_with [mk_entry (image_id img_url) img_url f] i).length ≤ 1 :=
        le_trans (List.length_filter_le _ _) (by simp)
      rw [ha]
      simpa using hb
    · have hb : records_with [mk_entry (image_id img_url) img_url f] i = [] := by
        simp [records_with, List.filter_cons, id_matches_mk_entry, Ne.symm hi]
      rw [hb]
      simpa using h i

/-- Witness for C9's amended statement: a fresh submit on the empty sequence
keeps ids unique. -/
theorem C9_witness :
    at_most_one_per_id (submit_logic "f/a.jpg" ⟨"x", "", "", "", "", ""⟩ []).1 :=
  C9_uniqueness_amended.1 "f/a.jpg" ⟨"x", "", "", "", "", ""⟩ []
    (by show ∀ i : String, (records_with ([] : List Json) i).length ≤ 1
        intro i
        simp [records_with])

/-- C10: a submit for an id already present in the in-memory annotation
sequence performs no storage write at all (no backup, no canonical upload —
the store is returned unchanged), leaves the annotation and deletion
sequences untouched, and only advances the index by one, clamped at
`N - 1`. -/
theorem C10_duplicate_submit_frame :
    ∀ (ok : String → Bool) (ts folder : String) (urls : List String) (f : Fields)
      (s : NavState) (st : Store),
      has_id s.annotations (image_id (urls.getD s.index.toNat "")) = true →
      on_submit ok ts folder urls f s st =
        ({ s with index := next_image (urls.length : Int) s.index }, st,
          Except.ok false) := by
  intro ok ts folder urls f s st h
  simp only [on_submit]
  rw [if_pos h]

/-- Witness for C10: re-submitting the already-annotated image `a.jpg`
leaves the store and the sequences unchanged. -/
theorem C10_witness :
    on_submit (fun _ => true) "20240101-000000" "f" ["f/a.jpg"]
        ⟨"y", "", "", "", "", ""⟩
        ⟨0, [mk_entry "a" "f/a.jpg" ⟨"x", "", "", "", "", ""⟩], []⟩ (fun _ => none) =
      ({ (⟨0, [mk_entry "a" "f/a.jpg" ⟨"x", "", "", "", "", ""⟩], []⟩ : NavState) with
          index := next_image ((["f/a.jpg"] : List String).length : Int) 0 },
        (fun _ => none : Store), Except.ok false) :=
  C10_duplicate_submit_frame (fun _ => true) "20240101-000000" "f" ["f/a.jpg"]
    ⟨"y", "", "", "", "", ""⟩
    ⟨0, [mk_entry "a" "f/a.jpg" ⟨"x", "", "", "", "", ""⟩], []⟩ (fun _ => none)
    (by decide)
